import Mathlib

/-!
# Shader front end: text spans, newline detection, diagnostics, declaration lookup

A shallow embedding of the inline functions of `libobs/util/lexer.h` and
`libobs/graphics/shader-parser.h`, followed by the properties proved about them.

Conventions of the embedding:

* a byte (`char`) is a natural number; a pointer is a natural-number address and the
  null pointer is address `0`; memory is a function from addresses to bytes;
* `size_t` arithmetic is arithmetic modulo `SIZE_MOD = 2 ^ 64`;
* where a claim is about what a call leaves untouched, the structs behind its pointer
  arguments live in a store indexed by address, so that two pointers may be equal;
* a C string handed to `strcmp`/`strncmp` is the list of the bytes stored at its address;
  it is read up to its first NUL byte, and the end of the list reads as the terminator;
* a `for (i = 0; i < num; i++)` loop over a dynamic array is a structural recursion
  over the elements not visited yet, carrying the loop variables.
-/

namespace ObsShader

/-! ## Machine model -/

/-- Number of values of a `size_t`. -/
def SIZE_MOD : Nat := 2 ^ 64

/-- Flat byte memory: the byte stored at each address. -/
abbrev Memory := Nat → Nat

/-- The bytes of a C string as laid out in memory; reading stops at the first NUL. -/
abbrev CStr := List Nat

/-- The character a `const char *` points at: the head of the remaining bytes, the
terminating NUL once they are used up. -/
def deref (s : CStr) : Nat := s.headD 0

/-- The text a C string denotes: its bytes before the first NUL. -/
def cstr_text (s : CStr) : List Nat := s.takeWhile (fun c => c != 0)

/-- The libc `strcmp`: walk both strings, stop at the first differing character
(returning the difference) or at a common NUL (returning 0). -/
def strcmp : CStr → CStr → Int
  | [], [] => 0
  | [], b :: _ => 0 - (b : Int)
  | a :: _, [] => (a : Int) - 0
  | a :: s1, b :: s2 =>
    if a ≠ b then (a : Int) - (b : Int)
    else if a = 0 then 0
    else strcmp s1 s2

/-- The libc `strncmp`: as `strcmp`, but at most `n` characters are compared. -/
def strncmp : CStr → CStr → Nat → Int
  | _, _, 0 => 0
  | s1, s2, n + 1 =>
    if deref s1 ≠ deref s2 then (deref s1 : Int) - (deref s2 : Int)
    else if deref s1 = 0 then 0
    else strncmp s1.tail s2.tail n

/-- Modelled from the spec: `DARRAY(T)` of `darray.h`, which is not among the sources; a
growable ordered sequence whose `num` is the length of the list. -/
abbrev DARRAY (α : Type) := List α

/-- Modelled from the spec: `da_init` of `darray.h`, which is not among the sources; it
leaves the sequence empty. -/
def da_init {α : Type} (_da : DARRAY α) : DARRAY α := []

/-! ## lexer.h: string references -/

/-- The C `struct strref`: a segment of an existing character array. -/
structure strref where
  array : Nat
  len : Nat
  deriving DecidableEq, Repr

/-- The C `strref_clear`. -/
def strref_clear (_dst : strref) : strref :=
  { array := 0, len := 0 }

/-- The C `strref_set`. -/
def strref_set (_dst : strref) (array : Nat) (len : Nat) : strref :=
  { array := array, len := len }

/-- The C `strref_copy`. -/
def strref_copy (_dst : strref) (src : strref) : strref :=
  { array := src.array, len := src.len }

/-- The C `strref_add`; the result is the new value of `*dst`. -/
def strref_add (dst : strref) (t : strref) : strref :=
  if dst.array = 0 then strref_copy dst t
  else { dst with len := (dst.len + t.len) % SIZE_MOD }

/-- The C `strref_isempty`. -/
def strref_isempty (mem : Memory) (str : strref) : Bool :=
  if str.array = 0 ∨ str.len = 0 then true
  else if mem str.array = 0 then true
  else false

/-- The `len` bytes of memory starting at the origin of a span. -/
def strref_bytes (mem : Memory) (s : strref) : List Nat :=
  (List.range s.len).map (fun i => mem (s.array + i))

/-- The C `is_whitespace`. -/
def is_whitespace (ch : Nat) : Bool :=
  ch == 32 || ch == 13 || ch == 9 || ch == 10

/-- The C `is_newline`. -/
def is_newline (ch : Nat) : Bool :=
  ch == 13 || ch == 10

/-- The C `is_space_or_tab`. -/
def is_space_or_tab (ch : Nat) : Bool :=
  ch == 32 || ch == 9

/-- The C `is_newline_pair`. -/
def is_newline_pair (ch1 ch2 : Nat) : Bool :=
  (ch1 == 13 && ch2 == 10) || (ch1 == 10 && ch2 == 13)

/-- The C `newline_size`; the string literals are carriage return + line feed and line
feed + carriage return. -/
def newline_size (array : CStr) : Int :=
  if strncmp array [13, 10] 2 = 0 ∨ strncmp array [10, 13] 2 = 0 then 2
  else if deref array = 13 ∨ deref array = 10 then 1
  else 0

/-! ## lexer.h: diagnostics -/

/-- The C macro `LEVEL_ERROR`. -/
def LEVEL_ERROR : Int := 0

/-- The C macro `LEVEL_WARNING`. -/
def LEVEL_WARNING : Int := 1

/-- The C `struct error_item`. -/
structure error_item where
  error : CStr
  file : CStr
  row : Nat
  column : Nat
  level : Int
  deriving DecidableEq, Repr

/-- The C `struct error_data`. -/
structure error_data where
  errors : DARRAY error_item
  deriving DecidableEq, Repr

/-- The loop of `error_data_type_count`: the items from index `i` on and the running
`count`, a `size_t`. -/
def error_data_type_count_loop (type : Int) : List error_item → Nat → Nat
  | [], count => count
  | ei :: rest, count =>
    if ei.level = type then error_data_type_count_loop type rest ((count + 1) % SIZE_MOD)
    else error_data_type_count_loop type rest count

/-- The C `error_data_type_count`. -/
def error_data_type_count (ed : error_data) (type : Int) : Nat :=
  error_data_type_count_loop type ed.errors 0

/-- The loop of `error_data_has_errors`, over the items from index `i` on. -/
def error_data_has_errors_loop : List error_item → Bool
  | [] => false
  | ei :: rest =>
    if ei.level = LEVEL_ERROR then true
    else error_data_has_errors_loop rest

/-- The C `error_data_has_errors`. -/
def error_data_has_errors (ed : error_data) : Bool :=
  error_data_has_errors_loop ed.errors

/-- Number of items of a list whose level is `type`. -/
def level_count (type : Int) (l : List error_item) : Nat :=
  (l.filter (fun ei => decide (ei.level = type))).length

/-- Modelled from the spec: `error_data_add` of `lexer.c`, which is not among the
sources; it appends one item holding a copy of the message together with the given
file, row, column and level, and keeps the items already there. -/
def error_data_add (ed : error_data) (file : CStr) (row column : Nat) (msg : CStr)
    (level : Int) : error_data :=
  { errors := ed.errors ++
      [{ error := msg, file := file, row := row, column := column, level := level }] }

/-! ## shader-parser.h: the declaration model -/

/-- A `char *` field that may be null: `none` is `NULL`, `some s` points at the string `s`. -/
abbrev CStrPtr := Option CStr

/-- The C `enum shader_var_type`. -/
inductive shader_var_type where
  | SHADER_VAR_NONE
  | SHADER_VAR_UNIFORM
  | SHADER_VAR_CONST
  deriving DecidableEq, Repr

open shader_var_type

/-- The C `struct shader_var`. -/
structure shader_var where
  type : CStrPtr
  name : CStrPtr
  mapping : CStrPtr
  var_type : shader_var_type
  array_count : Int
  default_val : DARRAY Nat
  deriving DecidableEq, Repr

/-- The C `shader_var_init_param`; the result is the new value of `*sv`. -/
def shader_var_init_param (sv : shader_var) (type name : CStrPtr)
    (is_uniform is_const : Bool) : shader_var :=
  let sv1 : shader_var :=
    if is_uniform then { sv with var_type := SHADER_VAR_UNIFORM }
    else if is_const then { sv with var_type := SHADER_VAR_CONST }
    else { sv with var_type := SHADER_VAR_NONE }
  { sv1 with
    type := type
    name := name
    mapping := none
    array_count := 0
    default_val := da_init sv1.default_val }

/-- The C `struct shader_sampler`. -/
structure shader_sampler where
  name : CStrPtr
  states : DARRAY CStrPtr
  values : DARRAY CStrPtr
  deriving DecidableEq, Repr

/-- The C `struct shader_struct`; `name` is the string `strcmp` reads in
`shader_parser_getstruct`. -/
structure shader_struct where
  name : CStr
  vars : DARRAY shader_var
  deriving DecidableEq, Repr

/-- The C `struct shader_func`; `name` is the string `strcmp` reads in
`shader_parser_getfunc`, `start` and `(end)` are token addresses (`0` is `NULL`). -/
structure shader_func where
  name : CStr
  return_type : CStrPtr
  params : DARRAY shader_var
  start : Nat
  stop : Nat
  deriving DecidableEq, Repr

/-- The C `struct shader_parser`, the parser state. The embedded `struct cf_parser` is declared in
`cf-parser.h`, which is not among the sources, so its type is a parameter. -/
structure shader_parser_state (CFP : Type) where
  cfp : CFP
  params : DARRAY shader_var
  structs : DARRAY shader_struct
  samplers : DARRAY shader_sampler
  funcs : DARRAY shader_func

/-- The C `shader_parser_init`; `cf_parser_init` of `cf-parser.h` is a parameter. -/
def shader_parser_init {CFP : Type} (cf_parser_init : CFP → CFP)
    (sp : shader_parser_state CFP) : shader_parser_state CFP :=
  { cfp := cf_parser_init sp.cfp
    params := da_init sp.params
    structs := da_init sp.structs
    samplers := da_init sp.samplers
    funcs := da_init sp.funcs }

/-- The loop of `shader_parser_getfunc`: the functions from index `i` on. The result is
the index of the element the returned pointer `sp->funcs.array+i` addresses, `none`
for `NULL`. -/
def shader_parser_getfunc_loop (func_name : CStr) : List shader_func → Nat → Option Nat
  | [], _ => none
  | func :: rest, i =>
    if strcmp func.name func_name = 0 then some i
    else shader_parser_getfunc_loop func_name rest (i + 1)

/-- The C `shader_parser_getfunc`. -/
def shader_parser_getfunc {CFP : Type} (sp : shader_parser_state CFP) (func_name : CStr) :
    Option Nat :=
  shader_parser_getfunc_loop func_name sp.funcs 0

/-- The loop of `shader_parser_getstruct`: the aggregates from index `i` on. The result
is the index of the element the returned pointer `sp->structs.array+i` addresses,
`none` for `NULL`. -/
def shader_parser_getstruct_loop (struct_name : CStr) :
    List shader_struct → Nat → Option Nat
  | [], _ => none
  | st :: rest, i =>
    if strcmp st.name struct_name = 0 then some i
    else shader_parser_getstruct_loop struct_name rest (i + 1)

/-- The C `shader_parser_getstruct`. -/
def shader_parser_getstruct {CFP : Type} (sp : shader_parser_state CFP) (struct_name : CStr) :
    Option Nat :=
  shader_parser_getstruct_loop struct_name sp.structs 0

/-! ## Sample data -/

/-- A parser state with the functions `Main`, `main`, `main` (in this order) and the
aggregates `VertIn`, `VertOut`, `VertIn`, `VertIn`; the functions and aggregates of the
same name differ in their other fields. -/
def sample_state : shader_parser_state Unit :=
  { cfp := ()
    params := []
    structs :=
      [ { name := [86, 101, 114, 116, 73, 110], vars := [] },
        { name := [86, 101, 114, 116, 79, 117, 116], vars := [] },
        { name := [86, 101, 114, 116, 73, 110],
          vars := [⟨some [102], some [120], none, SHADER_VAR_NONE, 0, []⟩] },
        { name := [86, 101, 114, 116, 73, 110], vars := [] } ]
    samplers := []
    funcs :=
      [ { name := [77, 97, 105, 110], return_type := none, params := [], start := 0, stop := 0 },
        { name := [109, 97, 105, 110], return_type := none, params := [], start := 8, stop := 9 },
        { name := [109, 97, 105, 110], return_type := none, params := [], start := 0, stop := 0 } ] }

theorem strcmp_eq_zero_iff (s1 s2 : CStr) :
    strcmp s1 s2 = 0 ↔ cstr_text s1 = cstr_text s2 := by
  induction s1 generalizing s2 with
  | nil =>
    cases s2 with
    | nil => simp [strcmp, cstr_text]
    | cons b s2 =>
      by_cases hb : b = 0
      · simp [strcmp, cstr_text, hb]
      · simp [strcmp, cstr_text, hb]
  | cons a s1 ih =>
    cases s2 with
    | nil =>
      by_cases ha : a = 0
      · simp [strcmp, cstr_text, ha]
      · simp [strcmp, cstr_text, ha]
    | cons b s2 =>
      by_cases hab : a = b
      · subst hab
        by_cases ha : a = 0
        · simp [strcmp, cstr_text, ha]
        · have := ih s2
          simp only [cstr_text] at this
          simp [strcmp, cstr_text, ha, this]
      · have hne : (a : Int) - (b : Int) ≠ 0 := by omega
        by_cases ha : a = 0
        · by_cases hb : b = 0
          · omega
          · simp [strcmp, cstr_text, ha, hb, hab, hne]
            omega
        · by_cases hb : b = 0
          · simp [strcmp, cstr_text, ha, hb, hab, hne]
          · simp [strcmp, cstr_text, ha, hb, hab, hne]

/-! ### Text spans -/

theorem strref_bytes_append (mem : Memory) (p m n : Nat) :
    strref_bytes mem { array := p, len := m + n } =
      strref_bytes mem { array := p, len := m } ++
        strref_bytes mem { array := p + m, len := n } := by
  simp [strref_bytes, List.range_add, List.map_append, List.map_map, Function.comp_def,
    Nat.add_assoc]

/-- C1: for two spans `a`, `b` lying in the same buffer (a region of the address
space), with `a` of non-null origin and `b` starting exactly at `a.array + a.len`,
`strref_add a b` leaves a span of length `a.len + b.len` whose bytes are the bytes of
`a` followed by the bytes of `b`. -/
theorem strref_add_adjacent (mem : Memory) (buf size : Nat) (a b : strref)
    (hbuf : buf + size ≤ SIZE_MOD)
    (ha_in : buf ≤ a.array ∧ a.array + a.len ≤ buf + size)
    (hb_in : buf ≤ b.array ∧ b.array + b.len ≤ buf + size)
    (ha : a.array ≠ 0)
    (hb : b.array = a.array + a.len) :
    (strref_add a b).len = a.len + b.len ∧
      strref_bytes mem (strref_add a b) = strref_bytes mem a ++ strref_bytes mem b := by
  have hlt : a.len + b.len < SIZE_MOD := by omega
  have hadd : strref_add a b = { array := a.array, len := a.len + b.len } := by
    simp [strref_add, ha, Nat.mod_eq_of_lt hlt]
  rw [hadd]
  refine ⟨rfl, ?_⟩
  rw [strref_bytes_append]
  cases a with
  | mk pa la =>
    cases b with
    | mk pb lb =>
      simp only at hb
      rw [hb]

/-- Witness for C1: the spans `[16, 19)` and `[19, 21)` of the buffer `[16, 24)`. -/
theorem strref_add_adjacent_witness :
    (strref_add { array := 16, len := 3 } { array := 19, len := 2 }).len = 3 + 2 ∧
      strref_bytes (fun p => p % 7) (strref_add { array := 16, len := 3 } { array := 19, len := 2 }) =
        strref_bytes (fun p => p % 7) { array := 16, len := 3 } ++
          strref_bytes (fun p => p % 7) { array := 19, len := 2 } :=
  strref_add_adjacent (fun p => p % 7) 16 8 { array := 16, len := 3 } { array := 19, len := 2 }
    (by decide) (by decide) (by decide) (by decide) rfl

/-- C2: `strref_isempty` returns true exactly when the span has a null origin, or a zero
length, or a NUL as its first byte, and returns false in every other case. -/
theorem strref_isempty_iff (mem : Memory) (s : strref) :
    (strref_isempty mem s = true ↔ s.array = 0 ∨ s.len = 0 ∨ mem s.array = 0) ∧
      (strref_isempty mem s = false ↔ s.array ≠ 0 ∧ s.len ≠ 0 ∧ mem s.array ≠ 0) := by
  by_cases h1 : s.array = 0
  · simp [strref_isempty, h1]
  · by_cases h2 : s.len = 0
    · simp [strref_isempty, h1, h2]
    · by_cases h3 : mem s.array = 0
      · simp [strref_isempty, h1, h2, h3]
      · simp [strref_isempty, h1, h2, h3]

/-! ### Diagnostic collector -/

theorem error_data_has_errors_loop_iff (l : List error_item) :
    error_data_has_errors_loop l = true ↔ ∃ ei ∈ l, ei.level = LEVEL_ERROR := by
  induction l with
  | nil => simp [error_data_has_errors_loop]
  | cons ei rest ih =>
    by_cases h : ei.level = LEVEL_ERROR
    · simp [error_data_has_errors_loop, h]
    · simp [error_data_has_errors_loop, h, ih]

/-- C3: `error_data_has_errors` is true exactly when some item of the collector has
level `LEVEL_ERROR`; in particular it is false for the empty collector and for a
collector none of whose items has that level. -/
theorem error_data_has_errors_iff (ed : error_data) :
    (error_data_has_errors ed = true ↔ ∃ ei ∈ ed.errors, ei.level = LEVEL_ERROR) ∧
      (error_data_has_errors ed = false ↔ ∀ ei ∈ ed.errors, ei.level ≠ LEVEL_ERROR) := by
  have h := error_data_has_errors_loop_iff ed.errors
  refine ⟨h, ?_⟩
  rw [← Bool.not_eq_true, error_data_has_errors, h]
  simp

theorem level_count_le (type : Int) (l : List error_item) :
    level_count type l ≤ l.length :=
  List.length_filter_le _ l

theorem error_data_type_count_loop_eq (type : Int) (l : List error_item) (count : Nat)
    (h : count + level_count type l < SIZE_MOD) :
    error_data_type_count_loop type l count = count + level_count type l := by
  induction l generalizing count with
  | nil => simp [error_data_type_count_loop, level_count]
  | cons ei rest ih =>
    by_cases hl : ei.level = type
    · have hc : level_count type (ei :: rest) = level_count type rest + 1 := by
        simp [level_count, hl]
      rw [hc] at h
      have hm : (count + 1) % SIZE_MOD = count + 1 := Nat.mod_eq_of_lt (by omega)
      simp only [error_data_type_count_loop, hl, if_true, hm]
      rw [ih (count + 1) (by omega), hc]
      omega
    · have hc : level_count type (ei :: rest) = level_count type rest := by
        simp [level_count, hl]
      rw [hc] at h
      simp only [error_data_type_count_loop, hl, if_false]
      rw [ih count h, hc]

/-- C4: for a collector whose number of items fits a `size_t`, `error_data_type_count`
of a level `t` is the number of items whose level equals `t`; it is 0 for the empty
collector. -/
theorem error_data_type_count_eq (ed : error_data) (t : Int)
    (hnum : ed.errors.length < SIZE_MOD) :
    error_data_type_count ed t =
        (ed.errors.filter (fun ei => decide (ei.level = t))).length ∧
      error_data_type_count { errors := [] } t = 0 := by
  have hle := level_count_le t ed.errors
  have h := error_data_type_count_loop_eq t ed.errors 0 (by omega)
  constructor
  · rw [error_data_type_count, h]
    simp [level_count]
  · rfl

/-- Witness for C4: two errors and a warning, counted at `LEVEL_ERROR`. -/
theorem error_data_type_count_eq_witness :
    error_data_type_count
        { errors := [⟨[101], [102], 1, 1, 0⟩, ⟨[119], [102], 2, 5, 1⟩, ⟨[101], [102], 3, 1, 0⟩] }
        LEVEL_ERROR = 2 :=
  (error_data_type_count_eq
    { errors := [⟨[101], [102], 1, 1, 0⟩, ⟨[119], [102], 2, 5, 1⟩, ⟨[101], [102], 3, 1, 0⟩] }
    LEVEL_ERROR (by simp [SIZE_MOD])).1

/-! ### Declaration lookup -/

theorem shader_parser_getfunc_loop_none (n : CStr) (l : List shader_func) (i : Nat) :
    shader_parser_getfunc_loop n l i = none ↔ ∀ f ∈ l, strcmp f.name n ≠ 0 := by
  induction l generalizing i with
  | nil => simp [shader_parser_getfunc_loop]
  | cons f rest ih =>
    by_cases h : strcmp f.name n = 0
    · simp [shader_parser_getfunc_loop, h]
    · simp [shader_parser_getfunc_loop, h, ih]

theorem shader_parser_getfunc_loop_some (n : CStr) (l : List shader_func) (i k : Nat)
    (h : shader_parser_getfunc_loop n l i = some k) :
    ∃ d, ∃ hd : d < l.length, k = i + d ∧ strcmp (l[d]).name n = 0 ∧
      ∀ m (hm : m < l.length), m < d → strcmp (l[m]).name n ≠ 0 := by
  induction l generalizing i with
  | nil => simp [shader_parser_getfunc_loop] at h
  | cons f rest ih =>
    by_cases hf : strcmp f.name n = 0
    · simp only [shader_parser_getfunc_loop, hf, if_true, Option.some.injEq] at h
      refine ⟨0, by simp, by omega, by simpa using hf, ?_⟩
      intro m _ hm0
      omega
    · simp only [shader_parser_getfunc_loop, hf, if_false] at h
      obtain ⟨d, hd, hk, hz, hmin⟩ := ih (i + 1) h
      refine ⟨d + 1, by simpa using hd, by omega, by simpa using hz, ?_⟩
      intro m hm hmd
      cases m with
      | zero => simpa using hf
      | succ m =>
        have hm2 : m < rest.length := by simpa using hm
        simpa using hmin m hm2 (by omega)

theorem shader_parser_getstruct_loop_none (n : CStr) (l : List shader_struct) (i : Nat) :
    shader_parser_getstruct_loop n l i = none ↔ ∀ st ∈ l, strcmp st.name n ≠ 0 := by
  induction l generalizing i with
  | nil => simp [shader_parser_getstruct_loop]
  | cons st rest ih =>
    by_cases h : strcmp st.name n = 0
    · simp [shader_parser_getstruct_loop, h]
    · simp [shader_parser_getstruct_loop, h, ih]

theorem shader_parser_getstruct_loop_some (n : CStr) (l : List shader_struct) (i k : Nat)
    (h : shader_parser_getstruct_loop n l i = some k) :
    ∃ d, ∃ hd : d < l.length, k = i + d ∧ strcmp (l[d]).name n = 0 ∧
      ∀ m (hm : m < l.length), m < d → strcmp (l[m]).name n ≠ 0 := by
  induction l generalizing i with
  | nil => simp [shader_parser_getstruct_loop] at h
  | cons st rest ih =>
    by_cases hf : strcmp st.name n = 0
    · simp only [shader_parser_getstruct_loop, hf, if_true, Option.some.injEq] at h
      refine ⟨0, by simp, by omega, by simpa using hf, ?_⟩
      intro m _ hm0
      omega
    · simp only [shader_parser_getstruct_loop, hf, if_false] at h
      obtain ⟨d, hd, hk, hz, hmin⟩ := ih (i + 1) h
      refine ⟨d + 1, by simpa using hd, by omega, by simpa using hz, ?_⟩
      intro m hm hmd
      cases m with
      | zero => simpa using hf
      | succ m =>
        have hm2 : m < rest.length := by simpa using hm
        simpa using hmin m hm2 (by omega)

/-- On the sample state, `main` is found at index 1 (after `Main`, before the second
`main`), `MAIN` is not found, and `VertIn` is found at index 0. -/
theorem sample_state_lookups :
    shader_parser_getfunc sample_state [109, 97, 105, 110] = some 1 ∧
    shader_parser_getfunc sample_state [77, 65, 73, 78] = none ∧
    shader_parser_getstruct sample_state [86, 101, 114, 116, 73, 110] = some 0 ∧
    shader_parser_getstruct sample_state [86, 101, 114, 116] = none := by
  decide

/-- C5: when some function of the parser state has a name equal byte for byte to `n`,
`shader_parser_getfunc` returns the function at the smallest index whose name equals
`n`; the comparison is exact, so no function whose name differs from `n` (in letter
case or otherwise) is returned. -/
theorem shader_parser_getfunc_first_match {CFP : Type} (sp : shader_parser_state CFP) (n : CStr)
    (h : ∃ f ∈ sp.funcs, cstr_text f.name = cstr_text n) :
    ∃ i, ∃ hi : i < sp.funcs.length,
      shader_parser_getfunc sp n = some i ∧
      cstr_text (sp.funcs[i]).name = cstr_text n ∧
      (∀ j (hj : j < sp.funcs.length), j < i → cstr_text (sp.funcs[j]).name ≠ cstr_text n) ∧
      (∀ j (hj : j < sp.funcs.length), cstr_text (sp.funcs[j]).name ≠ cstr_text n →
        shader_parser_getfunc sp n ≠ some j) := by
  obtain ⟨f, hf, hname⟩ := h
  cases hres : shader_parser_getfunc sp n with
  | none =>
    rw [shader_parser_getfunc, shader_parser_getfunc_loop_none] at hres
    exact absurd ((strcmp_eq_zero_iff _ _).2 hname) (hres f hf)
  | some k =>
    obtain ⟨d, hd, hk, hz, hmin⟩ := shader_parser_getfunc_loop_some n sp.funcs 0 k hres
    have hkd : k = d := by omega
    subst hkd
    have hnk : cstr_text (sp.funcs[k]).name = cstr_text n := (strcmp_eq_zero_iff _ _).1 hz
    refine ⟨k, hd, rfl, hnk, ?_, ?_⟩
    · intro j hj hjk hjn
      exact hmin j hj hjk ((strcmp_eq_zero_iff _ _).2 hjn)
    · intro j hj hjn hjk
      have hjk2 : k = j := by simpa using hjk
      subst hjk2
      exact hjn hnk

/-- Witness for C5: looking up `main` among `Main`, `main`, `main`. -/
theorem shader_parser_getfunc_first_match_witness :
    ∃ i, ∃ hi : i < sample_state.funcs.length,
      shader_parser_getfunc sample_state [109, 97, 105, 110] = some i ∧
      cstr_text (sample_state.funcs[i]).name = cstr_text [109, 97, 105, 110] ∧
      (∀ j (hj : j < sample_state.funcs.length), j < i →
        cstr_text (sample_state.funcs[j]).name ≠ cstr_text [109, 97, 105, 110]) ∧
      (∀ j (hj : j < sample_state.funcs.length),
        cstr_text (sample_state.funcs[j]).name ≠ cstr_text [109, 97, 105, 110] →
        shader_parser_getfunc sample_state [109, 97, 105, 110] ≠ some j) :=
  shader_parser_getfunc_first_match sample_state [109, 97, 105, 110]
    ⟨{ name := [109, 97, 105, 110], return_type := none, params := [], start := 8, stop := 9 },
      by simp [sample_state], rfl⟩

/-- C6: when the aggregate list holds the name `n` at two indices `i < j`,
`shader_parser_getstruct` returns the first aggregate of the list named `n`: an index
`k ≤ i` before which no aggregate is named `n`, and never the later index `j`. -/
theorem shader_parser_getstruct_first_of_duplicates {CFP : Type} (sp : shader_parser_state CFP)
    (n : CStr) (i j : Nat) (hij : i < j) (hj : j < sp.structs.length)
    (hi_name : cstr_text (sp.structs[i]).name = cstr_text n)
    (hj_name : cstr_text (sp.structs[j]).name = cstr_text n) :
    ∃ k, ∃ hk : k < sp.structs.length,
      shader_parser_getstruct sp n = some k ∧
      cstr_text (sp.structs[k]).name = cstr_text n ∧
      (∀ m (hm : m < sp.structs.length), m < k → cstr_text (sp.structs[m]).name ≠ cstr_text n) ∧
      k ≤ i ∧
      shader_parser_getstruct sp n ≠ some j := by
  have hi : i < sp.structs.length := by omega
  have _hj := hj_name
  cases hres : shader_parser_getstruct sp n with
  | none =>
    rw [shader_parser_getstruct, shader_parser_getstruct_loop_none] at hres
    exact absurd ((strcmp_eq_zero_iff _ _).2 hi_name)
      (hres (sp.structs[i]) (List.getElem_mem _))
  | some k =>
    obtain ⟨d, hd, hk, hz, hmin⟩ := shader_parser_getstruct_loop_some n sp.structs 0 k hres
    have hkd : k = d := by omega
    subst hkd
    have hki : k ≤ i := by
      by_contra hlt
      exact hmin i hi (by omega) ((strcmp_eq_zero_iff _ _).2 hi_name)
    refine ⟨k, hd, rfl, (strcmp_eq_zero_iff _ _).1 hz, ?_, hki, ?_⟩
    · intro m hm hmk hmn
      exact hmin m hm hmk ((strcmp_eq_zero_iff _ _).2 hmn)
    · intro hkj
      have hkj2 : k = j := by simpa using hkj
      omega

/-- Witness for C6: `VertIn` occurs at the indices 0, 2 and 3 of the sample aggregates. -/
theorem shader_parser_getstruct_first_of_duplicates_witness :
    ∃ k, ∃ hk : k < sample_state.structs.length,
      shader_parser_getstruct sample_state [86, 101, 114, 116, 73, 110] = some k ∧
      cstr_text (sample_state.structs[k]).name = cstr_text [86, 101, 114, 116, 73, 110] ∧
      (∀ m (hm : m < sample_state.structs.length), m < k →
        cstr_text (sample_state.structs[m]).name ≠ cstr_text [86, 101, 114, 116, 73, 110]) ∧
      k ≤ 2 ∧
      shader_parser_getstruct sample_state [86, 101, 114, 116, 73, 110] ≠ some 3 :=
  shader_parser_getstruct_first_of_duplicates sample_state [86, 101, 114, 116, 73, 110] 2 3
    (by decide) (by decide) rfl rfl

/-- C7: `shader_parser_getfunc` returns not-found exactly when no function is named `n`,
`shader_parser_getstruct` returns not-found exactly when no aggregate is named `n`, and
both return not-found for every name on a parser state left by `shader_parser_init`. -/
theorem shader_parser_lookup_none_iff {CFP : Type} (cf_parser_init : CFP → CFP)
    (sp : shader_parser_state CFP) (n : CStr) :
    (shader_parser_getfunc sp n = none ↔ ∀ f ∈ sp.funcs, cstr_text f.name ≠ cstr_text n) ∧
    (shader_parser_getstruct sp n = none ↔
      ∀ st ∈ sp.structs, cstr_text st.name ≠ cstr_text n) ∧
    shader_parser_getfunc (shader_parser_init cf_parser_init sp) n = none ∧
    shader_parser_getstruct (shader_parser_init cf_parser_init sp) n = none := by
  refine ⟨?_, ?_, rfl, rfl⟩
  · rw [shader_parser_getfunc, shader_parser_getfunc_loop_none]
    constructor
    · intro h f hf hn
      exact h f hf ((strcmp_eq_zero_iff _ _).2 hn)
    · intro h f hf hz
      exact h f hf ((strcmp_eq_zero_iff _ _).1 hz)
  · rw [shader_parser_getstruct, shader_parser_getstruct_loop_none]
    constructor
    · intro h st hst hn
      exact h st hst ((strcmp_eq_zero_iff _ _).2 hn)
    · intro h st hst hz
      exact h st hst ((strcmp_eq_zero_iff _ _).1 hz)

/-! ### Newline sequences -/

theorem strncmp_two (a b c d : Nat) (t u : CStr) (hc : c ≠ 0) :
    strncmp (a :: b :: t) (c :: d :: u) 2 = 0 ↔ a = c ∧ b = d := by
  by_cases hac : a = c
  · by_cases hbd : b = d
    · simp [strncmp, deref, hac, hbd, hc]
    · have hne : (b : Int) - (d : Int) ≠ 0 := by omega
      simp [strncmp, deref, hac, hbd, hc, hne]
  · have hne : (a : Int) - (c : Int) ≠ 0 := by omega
    simp [strncmp, deref, hac, hne]

theorem strncmp_two_short (a c d : Nat) (u : CStr) (hc : c ≠ 0) (hd : d ≠ 0) :
    strncmp [a] (c :: d :: u) 2 ≠ 0 := by
  by_cases hac : a = c
  · simp [strncmp, deref, hac, hc, hd, Ne.symm hd]
  · have hne : (a : Int) - (c : Int) ≠ 0 := by omega
    simp [strncmp, deref, hac, hne]

theorem strncmp_two_nil (c d : Nat) (u : CStr) (hc : c ≠ 0) :
    strncmp [] (c :: d :: u) 2 ≠ 0 := by
  simp [strncmp, deref, hc, Ne.symm hc]

theorem newline_size_cons_cons (a b : Nat) (t : CStr) :
    newline_size (a :: b :: t) =
      if (a = 13 ∧ b = 10) ∨ (a = 10 ∧ b = 13) then 2
      else if a = 13 ∨ a = 10 then 1 else 0 := by
  simp only [newline_size, strncmp_two a b 13 10 t [] (by decide),
    strncmp_two a b 10 13 t [] (by decide), deref, List.headD_cons]

theorem newline_size_single (a : Nat) :
    newline_size [a] = if a = 13 ∨ a = 10 then 1 else 0 := by
  simp [newline_size, strncmp_two_short a 13 10 [] (by decide) (by decide),
    strncmp_two_short a 10 13 [] (by decide) (by decide), deref]

theorem newline_size_nil : newline_size [] = 0 := by
  simp [newline_size, strncmp_two_nil 13 10 [] (by decide),
    strncmp_two_nil 10 13 [] (by decide), deref]

/-- C8: `newline_size` is 2 on a string that begins with CR LF or with LF CR, 1 on a
string that begins with a CR or LF which does not start such a pair (CR CR, LF LF and a
newline character at the end of the string included), and 0 when the first character
is not a newline character (the empty string included); in `a CR LF b LF CR c` it is 2
at offset 1 and 2 at offset 4. -/
theorem newline_size_spec (s : CStr) :
    newline_size s =
      (if (deref s = 13 ∧ deref s.tail = 10) ∨ (deref s = 10 ∧ deref s.tail = 13) then 2
       else if deref s = 13 ∨ deref s = 10 then 1 else 0) ∧
    (∀ t : CStr, newline_size (13 :: 10 :: t) = 2 ∧ newline_size (10 :: 13 :: t) = 2) ∧
    (∀ (c : Nat) (t : CStr), c ≠ 10 → newline_size (13 :: c :: t) = 1) ∧
    (∀ (c : Nat) (t : CStr), c ≠ 13 → newline_size (10 :: c :: t) = 1) ∧
    newline_size [13, 13] = 1 ∧ newline_size [10, 10] = 1 ∧
    newline_size [13] = 1 ∧ newline_size [10] = 1 ∧
    (∀ (c : Nat) (t : CStr), c ≠ 13 → c ≠ 10 → newline_size (c :: t) = 0) ∧
    newline_size [] = 0 ∧
    newline_size (List.drop 1 [97, 13, 10, 98, 10, 13, 99]) = 2 ∧
    newline_size (List.drop 4 [97, 13, 10, 98, 10, 13, 99]) = 2 := by
  refine ⟨?_, ?_, ?_, ?_, ?_, ?_, ?_, ?_, ?_, newline_size_nil, ?_, ?_⟩
  · cases s with
    | nil => simp [newline_size_nil, deref]
    | cons a s =>
      cases s with
      | nil =>
        rw [newline_size_single]
        by_cases h13 : a = 13
        · simp [deref, h13]
        · by_cases h10 : a = 10
          · simp [deref, h10]
          · simp [deref, h13, h10]
      | cons b t => simp [newline_size_cons_cons, deref]
  · intro t
    simp [newline_size_cons_cons]
  · intro c t hc
    simp [newline_size_cons_cons, hc]
  · intro c t hc
    simp [newline_size_cons_cons, hc]
  · simp [newline_size_cons_cons]
  · simp [newline_size_cons_cons]
  · simp [newline_size_single]
  · simp [newline_size_single]
  · intro c t h13 h10
    cases t with
    | nil => simp [newline_size_single, h13, h10]
    | cons b t => simp [newline_size_cons_cons, h13, h10]
  · simp [newline_size_cons_cons]
  · simp [newline_size_cons_cons]

/-! ### Variables -/

/-- C9: `shader_var_init_param` sets the role from the qualifier flags: uniform without
const gives `SHADER_VAR_UNIFORM`, const without uniform gives `SHADER_VAR_CONST`, and
neither flag gives `SHADER_VAR_NONE`. -/
theorem shader_var_init_param_role (sv : shader_var) (type name : CStrPtr) :
    (shader_var_init_param sv type name true false).var_type = SHADER_VAR_UNIFORM ∧
    (shader_var_init_param sv type name false true).var_type = SHADER_VAR_CONST ∧
    (shader_var_init_param sv type name false false).var_type = SHADER_VAR_NONE :=
  ⟨rfl, rfl, rfl⟩

/-- C10: whatever the record held before, the variable left by `shader_var_init_param`
has the given type and name, a null mapping, `array_count` 0 and an empty `default_val`;
with type `float4x4`, name `ViewProj` and the uniform flag set it is the variable of role
Uniform with exactly these fields. -/
theorem shader_var_init_param_fields (sv : shader_var) (type name : CStrPtr)
    (is_uniform is_const : Bool) :
    (shader_var_init_param sv type name is_uniform is_const).type = type ∧
    (shader_var_init_param sv type name is_uniform is_const).name = name ∧
    (shader_var_init_param sv type name is_uniform is_const).mapping = none ∧
    (shader_var_init_param sv type name is_uniform is_const).array_count = 0 ∧
    (shader_var_init_param sv type name is_uniform is_const).default_val = [] ∧
    shader_var_init_param sv (some [102, 108, 111, 97, 116, 52, 120, 52])
        (some [86, 105, 101, 119, 80, 114, 111, 106]) true is_const =
      { type := some [102, 108, 111, 97, 116, 52, 120, 52]
        name := some [86, 105, 101, 119, 80, 114, 111, 106]
        mapping := none
        var_type := SHADER_VAR_UNIFORM
        array_count := 0
        default_val := [] } :=
  ⟨rfl, rfl, rfl, rfl, rfl, rfl⟩

/-! ### Frame of span extension -/

/-- C16: a cleared span is a left identity of extension: after `strref_clear`,
`strref_add dst t` leaves `dst` equal to `t`; more generally a `dst` of null origin
becomes `t` whatever its previous length, which is discarded and not added. -/
theorem strref_add_null_origin (dst t : strref) :
    strref_add (strref_clear dst) t = t ∧
    (strref_add (strref_clear dst) t).array = t.array ∧
    (strref_add (strref_clear dst) t).len = t.len ∧
    (∀ len : Nat, strref_add { array := 0, len := len } t = t) ∧
    (dst.array = 0 → strref_add dst t = t) := by
  refine ⟨rfl, rfl, rfl, fun _ => rfl, ?_⟩
  intro h
  simp [strref_add, strref_copy, h]

/-! ### Accumulation in the diagnostic collector -/

theorem error_data_type_count_level_count (ed : error_data) (t : Int)
    (hnum : ed.errors.length < SIZE_MOD) :
    error_data_type_count ed t = level_count t ed.errors := by
  have hle := level_count_le t ed.errors
  have h := error_data_type_count_loop_eq t ed.errors 0 (by omega)
  rw [error_data_type_count, h]
  omega

theorem level_count_append_one (t : Int) (l : List error_item) (x : error_item) :
    level_count t (l ++ [x]) = level_count t l + (if x.level = t then 1 else 0) := by
  by_cases h : x.level = t
  · simp [level_count, List.filter_append, h]
  · simp [level_count, List.filter_append, h]

theorem level_count_pos_iff (t : Int) (l : List error_item) :
    0 < level_count t l ↔ ∃ ei ∈ l, ei.level = t := by
  induction l with
  | nil => simp [level_count]
  | cons ei rest ih =>
    by_cases h : ei.level = t
    · simp [level_count, h]
    · have hc : level_count t (ei :: rest) = level_count t rest := by
        simp [level_count, h]
      rw [hc, ih]
      simp [h]

theorem level_count_eq_length (t : Int) (l : List error_item)
    (h : ∀ ei ∈ l, ei.level = t) : level_count t l = l.length := by
  induction l with
  | nil => simp [level_count]
  | cons ei rest ih =>
    have h1 : ei.level = t := h ei (List.mem_cons_self _ _)
    have h2 : level_count t rest = rest.length :=
      ih (fun e he => h e (List.mem_cons_of_mem _ he))
    have hc : level_count t (ei :: rest) = level_count t rest + 1 := by
      simp [level_count, h1]
    rw [hc, h2]
    simp

theorem level_count_two_levels (l : List error_item)
    (h : ∀ ei ∈ l, ei.level = LEVEL_ERROR ∨ ei.level = LEVEL_WARNING) :
    level_count LEVEL_ERROR l + level_count LEVEL_WARNING l = l.length := by
  induction l with
  | nil => simp [level_count]
  | cons ei rest ih =>
    have h2 := ih (fun e he => h e (List.mem_cons_of_mem _ he))
    rcases h ei (List.mem_cons_self _ _) with h1 | h1
    · have hne : ei.level ≠ LEVEL_WARNING := by
        rw [h1]
        decide
      have hc1 : level_count LEVEL_ERROR (ei :: rest) = level_count LEVEL_ERROR rest + 1 := by
        simp [level_count, h1]
      have hc2 : level_count LEVEL_WARNING (ei :: rest) = level_count LEVEL_WARNING rest := by
        simp [level_count, hne]
      rw [hc1, hc2, List.length_cons]
      omega
    · have hne : ei.level ≠ LEVEL_ERROR := by
        rw [h1]
        decide
      have hc1 : level_count LEVEL_ERROR (ei :: rest) = level_count LEVEL_ERROR rest := by
        simp [level_count, hne]
      have hc2 :
          level_count LEVEL_WARNING (ei :: rest) = level_count LEVEL_WARNING rest + 1 := by
        simp [level_count, h1]
      rw [hc1, hc2, List.length_cons]
      omega

/-- C12: the collector only accumulates: for a collector that still has room for one
more item within a `size_t`, after `error_data_add` the count of every level `t` is the
count before plus 1 when the added level is `t` and plus 0 otherwise, the items already
there are kept in place, and `error_data_has_errors` stays true once it is true. -/
theorem error_data_add_accumulates (ed : error_data) (file : CStr) (row column : Nat)
    (msg : CStr) (level t : Int) (hnum : ed.errors.length + 1 < SIZE_MOD) :
    error_data_type_count (error_data_add ed file row column msg level) t =
      error_data_type_count ed t + (if level = t then 1 else 0) ∧
    (error_data_has_errors ed = true →
      error_data_has_errors (error_data_add ed file row column msg level) = true) ∧
    (error_data_add ed file row column msg level).errors.length = ed.errors.length + 1 ∧
    (error_data_add ed file row column msg level).errors.take ed.errors.length =
      ed.errors := by
  have hlen : (error_data_add ed file row column msg level).errors.length =
      ed.errors.length + 1 := by
    simp [error_data_add]
  refine ⟨?_, ?_, hlen, ?_⟩
  · rw [error_data_type_count_level_count _ t (by omega),
      error_data_type_count_level_count ed t (by omega)]
    simp only [error_data_add]
    rw [level_count_append_one]
  · intro h
    rw [error_data_has_errors, error_data_has_errors_loop_iff] at h ⊢
    obtain ⟨ei, hmem, hlv⟩ := h
    exact ⟨ei, by simp [error_data_add, hmem], hlv⟩
  · simp [error_data_add]

/-- Witness for C12: adding a warning to a collector holding one error. -/
theorem error_data_add_accumulates_witness :
    error_data_type_count
        (error_data_add { errors := [⟨[101], [102], 1, 1, 0⟩] } [102] 2 5 [119] LEVEL_WARNING)
        LEVEL_WARNING =
      error_data_type_count { errors := [⟨[101], [102], 1, 1, 0⟩] } LEVEL_WARNING + 1 :=
  (error_data_add_accumulates { errors := [⟨[101], [102], 1, 1, 0⟩] } [102] 2 5 [119]
    LEVEL_WARNING LEVEL_WARNING (by simp [SIZE_MOD])).1

/-- C17: for a collector whose number of items is a `size_t` value,
`error_data_has_errors` is true exactly when the count of `LEVEL_ERROR` items is
positive; a collector holding only `LEVEL_WARNING` items has no errors and a warning
count equal to its number of items. -/
theorem error_data_has_errors_iff_count_pos (ed : error_data)
    (hnum : ed.errors.length < SIZE_MOD) :
    (error_data_has_errors ed = true ↔ 0 < error_data_type_count ed LEVEL_ERROR) ∧
    ((∀ ei ∈ ed.errors, ei.level = LEVEL_WARNING) →
      error_data_has_errors ed = false ∧
      error_data_type_count ed LEVEL_WARNING = ed.errors.length) := by
  constructor
  · rw [error_data_type_count_level_count ed _ hnum, level_count_pos_iff,
      error_data_has_errors, error_data_has_errors_loop_iff]
  · intro hw
    constructor
    · rw [← Bool.not_eq_true, error_data_has_errors, error_data_has_errors_loop_iff]
      rintro ⟨ei, hmem, hlv⟩
      have h1 := hw ei hmem
      rw [hlv] at h1
      revert h1
      decide
    · rw [error_data_type_count_level_count ed _ hnum]
      exact level_count_eq_length _ _ hw

/-- Witness for C17: a collector of two warnings has no errors and warning count 2. -/
theorem error_data_has_errors_iff_count_pos_witness :
    error_data_has_errors { errors := [⟨[119], [102], 1, 1, 1⟩, ⟨[119], [102], 4, 2, 1⟩] } =
        false ∧
      error_data_type_count
          { errors := [⟨[119], [102], 1, 1, 1⟩, ⟨[119], [102], 4, 2, 1⟩] } LEVEL_WARNING = 2 :=
  (error_data_has_errors_iff_count_pos
    { errors := [⟨[119], [102], 1, 1, 1⟩, ⟨[119], [102], 4, 2, 1⟩] }
    (by simp [SIZE_MOD])).2 (by decide)

/-- C18: for a collector (its number of items a `size_t` value) all of whose items have
level `LEVEL_ERROR` or `LEVEL_WARNING`, the counts of these two levels add up to the
number of items, and the count of every other level is 0. -/
theorem error_data_type_count_partition (ed : error_data)
    (hnum : ed.errors.length < SIZE_MOD)
    (hlevels : ∀ ei ∈ ed.errors, ei.level = LEVEL_ERROR ∨ ei.level = LEVEL_WARNING) :
    error_data_type_count ed LEVEL_ERROR + error_data_type_count ed LEVEL_WARNING =
      ed.errors.length ∧
    (∀ t : Int, t ≠ LEVEL_ERROR → t ≠ LEVEL_WARNING → error_data_type_count ed t = 0) := by
  constructor
  · rw [error_data_type_count_level_count ed _ hnum,
      error_data_type_count_level_count ed _ hnum]
    exact level_count_two_levels _ hlevels
  · intro t h0 h1
    rw [error_data_type_count_level_count ed _ hnum]
    by_contra hne
    have hpos : 0 < level_count t ed.errors := Nat.pos_of_ne_zero hne
    obtain ⟨ei, hmem, hlv⟩ := (level_count_pos_iff t ed.errors).1 hpos
    rcases hlevels ei hmem with h | h
    · exact h0 (hlv.symm.trans h)
    · exact h1 (hlv.symm.trans h)

/-- Witness for C18: two errors and one warning. -/
theorem error_data_type_count_partition_witness :
    error_data_type_count
        { errors := [⟨[101], [102], 1, 1, 0⟩, ⟨[119], [102], 2, 5, 1⟩, ⟨[101], [102], 3, 1, 0⟩] }
        LEVEL_ERROR +
      error_data_type_count
        { errors := [⟨[101], [102], 1, 1, 0⟩, ⟨[119], [102], 2, 5, 1⟩, ⟨[101], [102], 3, 1, 0⟩] }
        LEVEL_WARNING = 3 :=
  (error_data_type_count_partition
    { errors := [⟨[101], [102], 1, 1, 0⟩, ⟨[119], [102], 2, 5, 1⟩, ⟨[101], [102], 3, 1, 0⟩] }
    (by simp [SIZE_MOD]) (by decide)).1

/-! ### Agreement of the newline detectors and the character classes -/

theorem newline_size_eq (s : CStr) :
    newline_size s =
      if (deref s = 13 ∧ deref s.tail = 10) ∨ (deref s = 10 ∧ deref s.tail = 13) then 2
      else if deref s = 13 ∨ deref s = 10 then 1 else 0 := by
  cases s with
  | nil => simp [newline_size_nil, deref]
  | cons a s =>
    cases s with
    | nil =>
      rw [newline_size_single]
      by_cases h13 : a = 13
      · simp [deref, h13]
      · by_cases h10 : a = 10
        · simp [deref, h10]
        · simp [deref, h13, h10]
    | cons b t => simp [newline_size_cons_cons, deref]

theorem is_newline_pair_iff (a b : Nat) :
    is_newline_pair a b = true ↔ (a = 13 ∧ b = 10) ∨ (a = 10 ∧ b = 13) := by
  simp [is_newline_pair]

theorem is_newline_iff (ch : Nat) : is_newline ch = true ↔ ch = 13 ∨ ch = 10 := by
  simp [is_newline]

/-- C13: the two newline detectors agree: with `c0` the first character of a string and
`c1` the one after it, `newline_size` is 2 exactly when `is_newline_pair c0 c1` holds
and at least 1 exactly when `is_newline c0` holds; `is_newline_pair` is symmetric, and
it implies that both characters are newline characters and differ. -/
theorem newline_detectors_agree (s : CStr) (a b : Nat) :
    (newline_size s = 2 ↔ is_newline_pair (deref s) (deref s.tail) = true) ∧
    (1 ≤ newline_size s ↔ is_newline (deref s) = true) ∧
    is_newline_pair a b = is_newline_pair b a ∧
    (is_newline_pair a b = true →
      is_newline a = true ∧ is_newline b = true ∧ a ≠ b) := by
  refine ⟨?_, ?_, ?_, ?_⟩
  · rw [newline_size_eq, is_newline_pair_iff]
    by_cases hp : (deref s = 13 ∧ deref s.tail = 10) ∨ (deref s = 10 ∧ deref s.tail = 13)
    · simp [hp]
    · by_cases hn : deref s = 13 ∨ deref s = 10
      · simp [hp, hn]
      · simp [hp, hn]
  · rw [newline_size_eq, is_newline_iff]
    by_cases hp : (deref s = 13 ∧ deref s.tail = 10) ∨ (deref s = 10 ∧ deref s.tail = 13)
    · have hn : deref s = 13 ∨ deref s = 10 := by
        rcases hp with h | h
        · exact Or.inl h.1
        · exact Or.inr h.1
      simp [hp, hn]
    · by_cases hn : deref s = 13 ∨ deref s = 10
      · simp [hp, hn]
      · simp [hp, hn]
  · rw [Bool.eq_iff_iff, is_newline_pair_iff, is_newline_pair_iff]
    constructor
    · rintro (h | h)
      · exact Or.inr ⟨h.2, h.1⟩
      · exact Or.inl ⟨h.2, h.1⟩
    · rintro (h | h)
      · exact Or.inr ⟨h.2, h.1⟩
      · exact Or.inl ⟨h.2, h.1⟩
  · intro h
    rw [is_newline_pair_iff] at h
    rw [is_newline_iff, is_newline_iff]
    rcases h with h | h
    · exact ⟨Or.inl h.1, Or.inr h.2, by omega⟩
    · exact ⟨Or.inr h.1, Or.inl h.2, by omega⟩

/-- C14: a character is whitespace exactly when it is a newline character or a space or
tab, no character is both, and the whitespace characters are exactly space, tab,
carriage return and line feed; NUL, letters, digits, vertical tab and form feed are
not whitespace. -/
theorem is_whitespace_classes (ch : Nat) :
    (is_whitespace ch = true ↔ is_newline ch = true ∨ is_space_or_tab ch = true) ∧
    ¬ (is_newline ch = true ∧ is_space_or_tab ch = true) ∧
    (is_whitespace ch = true ↔ ch = 32 ∨ ch = 9 ∨ ch = 13 ∨ ch = 10) ∧
    is_whitespace 0 = false ∧ is_whitespace 11 = false ∧ is_whitespace 12 = false ∧
    ((65 ≤ ch ∧ ch ≤ 90) ∨ (97 ≤ ch ∧ ch ≤ 122) ∨ (48 ≤ ch ∧ ch ≤ 57) →
      is_whitespace ch = false) := by
  refine ⟨?_, ?_, ?_, by decide, by decide, by decide, ?_⟩
  · simp only [is_whitespace, is_newline, is_space_or_tab, Bool.or_eq_true, beq_iff_eq]
    omega
  · simp only [is_newline, is_space_or_tab, Bool.or_eq_true, beq_iff_eq]
    omega
  · simp only [is_whitespace, Bool.or_eq_true, beq_iff_eq]
    omega
  · intro h
    rw [← Bool.not_eq_true]
    simp only [is_whitespace, Bool.or_eq_true, beq_iff_eq]
    omega

/-! ### Precedence of the qualifier flags -/

/-- C15: with both flags set `shader_var_init_param` gives the role
`SHADER_VAR_UNIFORM`; for every combination of the flags the role is one of the three
roles, and it is `SHADER_VAR_CONST` exactly when the const flag is set and the uniform
flag is not. -/
theorem shader_var_init_param_precedence (sv : shader_var) (type name : CStrPtr)
    (is_uniform is_const : Bool) :
    (shader_var_init_param sv type name true true).var_type = SHADER_VAR_UNIFORM ∧
    ((shader_var_init_param sv type name is_uniform is_const).var_type = SHADER_VAR_NONE ∨
      (shader_var_init_param sv type name is_uniform is_const).var_type = SHADER_VAR_UNIFORM ∨
      (shader_var_init_param sv type name is_uniform is_const).var_type = SHADER_VAR_CONST) ∧
    ((shader_var_init_param sv type name is_uniform is_const).var_type = SHADER_VAR_UNIFORM ↔
      is_uniform = true) ∧
    ((shader_var_init_param sv type name is_uniform is_const).var_type = SHADER_VAR_CONST ↔
      is_uniform = false ∧ is_const = true) ∧
    ((shader_var_init_param sv type name is_uniform is_const).var_type = SHADER_VAR_NONE ↔
      is_uniform = false ∧ is_const = false) := by
  cases is_uniform <;> cases is_const <;> simp [shader_var_init_param]

end ObsShader
